import Mathlib

/-!
Shallow embedding of the `strava-to-sqlite` command-line tool
(`strava_to_sqlite/cli.py` and `strava_to_sqlite/auth_http_server.py`).

Pure string manipulation (`slugify`, `gpx_filename`) is translated
directly.  The stateful commands (`activities`, `download_gpx`,
`load_activity_gpx_tracks`, `auth`, the OAuth callback handler) are
rendered as explicit state-passing functions; the remote HTTP service,
the browser, and the GPX parsing libraries (fiona/shapely) are
external collaborators and appear as function parameters.  Python
exceptions are rendered as explicit error values, and the unbounded
`while True` fetch loop is given a fuel parameter whose exhaustion is
`none` (a run that has not yet exited its loop).
-/

namespace StravaToSqlite

/-- Characters removed by the regex `[#'\",\-]` in `slugify`:
`#`, the apostrophe (code 39), the double quote (code 34), `,`, `-`. -/
def specialChars : List Char := ['#', Char.ofNat 39, Char.ofNat 34, ',', '-']

/-- ASCII whitespace matched by the Python regex class `\s`:
space, tab, newline, carriage return, vertical tab, form feed. -/
def isPySpace (c : Char) : Bool :=
  c = ' ' || c = Char.ofNat 9 || c = Char.ofNat 10 || c = Char.ofNat 13 ||
  c = Char.ofNat 11 || c = Char.ofNat 12

/-- Worker for `collapseWs`: the flag records whether the previous
character was part of a whitespace run whose separator has already
been emitted. -/
def collapseWsAux (sep : List Char) : Bool → List Char → List Char
  | _, [] => []
  | inRun, c :: cs =>
    if isPySpace c then
      (if inRun then [] else sep) ++ collapseWsAux sep true cs
    else c :: collapseWsAux sep false cs

/-- Replacement of every maximal run of whitespace by the separator,
as performed by Python's `re.sub(r"\s+", sep, slugified)`. -/
def collapseWs (sep : List Char) (l : List Char) : List Char :=
  collapseWsAux sep false l

/-- Translation of `slugify` from `cli.py`: lower-case (ASCII case
mapping), drop the characters `#'\",-`, then replace each whitespace
run by the separator (default underscore). -/
def slugify (val : String) (sep : String := "_") : String :=
  let lowered := val.toList.map Char.toLower
  let removed := lowered.filter (fun c => !(specialChars.contains c))
  String.mk (collapseWs sep.toList removed)

/-- Activity summary dictionary handed to the GPX fetcher:
`{id, name, start_date_local}`. -/
structure GpxActivity where
  id : Int
  name : String
  start_date_local : String
deriving DecidableEq, Repr

/-- Python slice-and-replace `activity["start_date_local"][:10].replace("-", "")`. -/
def activityDateSlug (start_date_local : String) : String :=
  String.mk ((start_date_local.toList.take 10).filter (fun c => c ≠ '-'))

/-- Translation of `gpx_filename` from `cli.py`. -/
def gpx_filename (activity : GpxActivity) : String :=
  activityDateSlug activity.start_date_local ++ "_" ++ toString activity.id
    ++ "_" ++ slugify activity.name ++ ".gpx"

/-! ## Activity sync (`activities` command in `cli.py`) -/

/-- Row of the `activities` table: the primary key `id`, the UTC
`start_date` string, and the remaining passthrough columns. -/
structure Activity where
  id : Int
  start_date : String
  fields : List (String × String)
deriving DecidableEq, Repr

/-- The `activities` table of the target store.  `absent` is a database
in which the table has never been created (the first-sync case, where
`rows_where` yields no rows at all); `present rows` is an existing
table holding `rows` in rowid order. -/
inductive StoreTable where
  | absent
  | present (rows : List Activity)
deriving DecidableEq, Repr

/-- Python exceptions that can escape the watermark computation. -/
inductive PyError where
  | typeError
  | valueError
deriving DecidableEq, Repr

/-- Digit run to its numeric value; `none` unless the list is a
non-empty all-digit run. -/
def digitsVal (ds : List Char) : Option Nat :=
  if ds.isEmpty then none
  else if ds.all (fun c => c.isDigit) then
    some (ds.foldl (fun acc c => acc * 10 + (c.toNat - 48)) 0)
  else none

/-- Python's `int(s)` on a decimal string: surrounding ASCII whitespace
is ignored, an optional sign precedes the digits, anything else raises
`ValueError` (`none`). -/
def pyInt (s : List Char) : Option Int :=
  let t := ((s.dropWhile isPySpace).reverse.dropWhile isPySpace).reverse
  match t with
  | '-' :: ds => (digitsVal ds).map (fun n => -(n : Int))
  | '+' :: ds => (digitsVal ds).map (fun n => (n : Int))
  | ds => (digitsVal ds).map (fun n => (n : Int))

/-- Python slice `s[a:b]` on a list of characters. -/
def pySlice (s : List Char) (a b : Nat) : List Char :=
  (s.drop a).take (b - a)

/-- Naive `datetime.datetime` value. -/
structure DateTime where
  year : Nat
  month : Nat
  day : Nat
  hour : Nat
  minute : Nat
  second : Nat
deriving DecidableEq, Repr

/-- Gregorian leap-year test. -/
def isLeap (y : Nat) : Bool :=
  (y % 4 == 0 && y % 100 != 0) || y % 400 == 0

/-- Number of days in a month, as validated by the `datetime` constructor. -/
def daysInMonth (y m : Nat) : Nat :=
  if m = 2 then (if isLeap y then 29 else 28)
  else if m = 4 ∨ m = 6 ∨ m = 9 ∨ m = 11 then 30
  else 31

/-- The `datetime(...)` constructor: validates every component
(year 1..9999, month 1..12, day within the month, time components in
range) and raises `ValueError` (`none`) otherwise. -/
def mkDatetime (y mo d h mi s : Int) : Option DateTime :=
  if 1 ≤ y ∧ y ≤ 9999 ∧ 1 ≤ mo ∧ mo ≤ 12 ∧ 1 ≤ d ∧
      d ≤ (daysInMonth y.toNat mo.toNat : Int) ∧
      0 ≤ h ∧ h < 24 ∧ 0 ≤ mi ∧ mi < 60 ∧ 0 ≤ s ∧ s < 60 then
    some ⟨y.toNat, mo.toNat, d.toNat, h.toNat, mi.toNat, s.toNat⟩
  else none

/-- Parse of the stored `start_date` string exactly as `activities`
does it: `datetime(int(s[:4]), int(s[5:7]), int(s[8:10]), int(s[11:13]),
int(s[14:16]), int(s[17:19]))`; any failed `int` or constructor check
is a `ValueError`. -/
def parseStartDate (s : String) : Option DateTime := do
  let cs := s.toList
  let y ← pyInt (pySlice cs 0 4)
  let mo ← pyInt (pySlice cs 5 7)
  let d ← pyInt (pySlice cs 8 10)
  let h ← pyInt (pySlice cs 11 13)
  let mi ← pyInt (pySlice cs 14 16)
  let sec ← pyInt (pySlice cs 17 19)
  mkDatetime y mo d h mi sec

/-- Days before the first of the month within a year. -/
def daysBeforeMonth (m : Nat) (leap : Bool) : Nat :=
  (match m with
   | 1 => 0 | 2 => 31 | 3 => 59 | 4 => 90 | 5 => 120 | 6 => 151
   | 7 => 181 | 8 => 212 | 9 => 243 | 10 => 273 | 11 => 304 | _ => 334)
  + (if leap && m > 2 then 1 else 0)

/-- Days from 0001-01-01 to the given civil date (proleptic Gregorian). -/
def daysFromYearOne (y m d : Nat) : Nat :=
  365 * (y - 1) + (y - 1) / 4 + (y - 1) / 400 - (y - 1) / 100
    + daysBeforeMonth m (isLeap y) + (d - 1)

/-- The call `int(max_start_date.timestamp())` on the parsed naive
datetime: seconds since the Unix epoch.  Python interprets a naive
datetime in the local timezone; the stored `start_date` values are
UTC, and the process is modelled as running with a UTC local time, so
this is the plain civil-to-epoch conversion. -/
def epochOf (dt : DateTime) : Int :=
  86400 * ((daysFromYearOne dt.year dt.month dt.day : Int)
            - (daysFromYearOne 1970 1 1 : Int))
    + 3600 * dt.hour + 60 * dt.minute + dt.second

/-- SQL `MAX(start_date)` over the table rows: the lexicographically
largest `start_date` string (BINARY collation), `none` on an empty
table (SQL NULL). -/
def maxStartDate (rows : List Activity) : Option String :=
  rows.foldl
    (fun acc a =>
      match acc with
      | none => some a.start_date
      | some s => some (if s < a.start_date then a.start_date else s))
    none

/-- Watermark computation at the top of `activities`.  A missing table
yields no rows, the `[0]` subscript raises `IndexError`, and the
handler sets the watermark to `None`.  An existing table yields one
aggregate row; if it is NULL (empty table) the slice `None[:4]` raises
an uncaught `TypeError`, and a malformed maximum raises an uncaught
`ValueError` from `int`/`datetime`. -/
def computeWatermark : StoreTable → Except PyError (Option DateTime)
  | StoreTable.absent => Except.ok none
  | StoreTable.present rows =>
    match maxStartDate rows with
    | none => Except.error PyError.typeError
    | some s =>
      match parseStartDate s with
      | none => Except.error PyError.valueError
      | some dt => Except.ok (some dt)

/-- Value of the `after` query parameter: set to the watermark's epoch
timestamp only when the `--all-activities` flag is off and the
watermark exists (`if not (all_activities or max_start_date is None)`). -/
def afterParam (all_activities : Bool) (w : Option DateTime) : Option Int :=
  if all_activities then none else w.map epochOf

/-- One GET request issued by the fetch loop: the `page` and optional
`after` query parameters. -/
structure Request where
  page : Nat
  after : Option Int
deriving DecidableEq, Repr

/-- Response of the remote activities endpoint: HTTP status and the
decoded JSON body (a list of activities). -/
structure Resp where
  status : Nat
  body : List Activity
deriving DecidableEq, Repr

/-- Observable events of one `activities` run: a page request to the
remote service, or a write of a batch of rows to the database. -/
inductive SyncEvent where
  | request (r : Request)
  | dbWrite (acts : List Activity)
deriving DecidableEq, Repr

/-- The `while True` fetch loop of `activities`: request the current
page (with the fixed `after` parameter), stop on a non-200 status
(429 only additionally prints to stderr) or on an empty page,
otherwise append the page to the accumulator and continue with the
next page number.  `reqs` records the requests issued so far; `none`
means the fuel ran out before the loop exited. -/
def fetchLoop (remote : Request → Resp) (a : Option Int) :
    Nat → Nat → List Activity → List Request →
    Option (List Request × List Activity)
  | 0, _, _, _ => none
  | fuel + 1, page, acc, reqs =>
    let r : Request := ⟨page, a⟩
    let resp := remote r
    if resp.status ≠ 200 then some (reqs ++ [r], acc)
    else if resp.body = [] then some (reqs ++ [r], acc)
    else fetchLoop remote a fuel (page + 1) (acc ++ resp.body) (reqs ++ [r])

/-- SQLite `INSERT OR REPLACE` of one row keyed by the primary key
`id`: replace the existing row with that id (its rowid, hence its
position, is preserved because `id` is the INTEGER PRIMARY KEY),
otherwise append. -/
def upsertActivity : List Activity → Activity → List Activity
  | [], a => [a]
  | r :: rs, a => if r.id = a.id then a :: rs else r :: upsertActivity rs a

/-- The final `db["activities"].insert_all(activities, pk="id",
replace=True, truncate=truncate)`: a no-op on an empty batch (the
table is not even created), otherwise delete all rows first when
`truncate` is set (only if the table exists), create the table if
missing, and insert every batch row with replace-on-conflict. -/
def insertAllReplace (store : StoreTable) (truncate : Bool)
    (acts : List Activity) : StoreTable :=
  match acts with
  | [] => store
  | _ :: _ =>
    let rows0 : List Activity :=
      match store with
      | StoreTable.absent => []
      | StoreTable.present rows => if truncate then [] else rows
    StoreTable.present (acts.foldl upsertActivity rows0)

/-- The whole `activities` command: compute the watermark (propagating
its exceptions), run the fetch loop from page 1 with an empty
accumulator, then upsert the accumulated activities in one batch.
The result is the event trace together with the final table; `none`
means the loop had not exited within the given fuel. -/
def activitiesSync (store : StoreTable) (all_activities truncate : Bool)
    (remote : Request → Resp) (fuel : Nat) :
    Option (Except PyError (List SyncEvent × StoreTable)) :=
  match computeWatermark store with
  | Except.error e => some (Except.error e)
  | Except.ok w =>
    match fetchLoop remote (afterParam all_activities w) fuel 1 [] [] with
    | none => none
    | some (reqs, acts) =>
      some (Except.ok
        (reqs.map SyncEvent.request ++ [SyncEvent.dbWrite acts],
         insertAllReplace store truncate acts))

/-! ## GPX fetcher (`download_gpx` in `cli.py`) -/

/-- State of one `download_gpx` run over the browser session.
`files` is the set of filenames present in the `gpx_dir` cache
directory (it grows as downloads complete); `nav` records the
activities whose detail page was navigated to; `exported` those for
which the export action was triggered; `written` the files written by
this run; `info` is the accumulated `activity_gpx_info` result. -/
structure DlState where
  files : List String
  nav : List GpxActivity
  exported : List GpxActivity
  written : List String
  info : List (Int × String)
deriving DecidableEq, Repr

/-- Body of the `for activity in activities` loop of `download_gpx`:
if the computed GPX path already exists, record it in the result and
continue without touching the network; otherwise navigate to the
activity page, and if the page offers an "Export GPX" action, download
and save the file (activities without the action are silently
skipped).  `hasExport` abstracts the browser's
`page.query_selector("text=Export GPX")` probe. -/
def download_gpx_step (hasExport : GpxActivity → Bool)
    (st : DlState) (a : GpxActivity) : DlState :=
  let fname := gpx_filename a
  if fname ∈ st.files then
    { st with info := st.info ++ [(a.id, fname)] }
  else
    let st1 := { st with nav := st.nav ++ [a] }
    if hasExport a then
      { st1 with
          exported := st1.exported ++ [a],
          files := st1.files ++ [fname],
          written := st1.written ++ [fname],
          info := st1.info ++ [(a.id, fname)] }
    else st1

/-- The `download_gpx` activity loop, starting from the cache
directory contents `files0` with an empty `activity_gpx_info`
accumulator (the login navigation preceding the loop is not
per-activity and is outside this model). -/
def download_gpx (hasExport : GpxActivity → Bool)
    (acts : List GpxActivity) (files0 : List String) : DlState :=
  acts.foldl (download_gpx_step hasExport) ⟨files0, [], [], [], []⟩

/-! ## GPX loader (`load_activity_gpx_tracks` in `cli.py`) -/

/-- Row of the `activity_gpx_tracks` table: primary key `id` and the
geometry column, held as its WKT encoding. -/
structure TrackRow where
  id : Int
  geometry : String
deriving DecidableEq, Repr

/-- The `init_gpx_table` bootstrap: create the table if it is absent
(check-then-create, idempotent), otherwise leave its rows alone. -/
def init_gpx_table : Option (List TrackRow) → List TrackRow
  | none => []
  | some rows => rows

/-- The `INSERT INTO activity_gpx_tracks ... ON CONFLICT(id) DO UPDATE
SET geometry=excluded.geometry` statement: update the geometry of the
row with the conflicting primary key in place, or append a new row. -/
def upsertTrack : List TrackRow → Int → String → List TrackRow
  | [], i, g => [⟨i, g⟩]
  | r :: rs, i, g =>
    if r.id = i then ⟨i, g⟩ :: rs else r :: upsertTrack rs i g

/-- The `load_activity_gpx_tracks` loop: ensure the spatial table
exists, then for each `(activity_id, gpx_path)` pair parse the first
track of the file into a multi-line-string WKT (the fiona/shapely
pipeline, abstracted as `parseGeom`) and upsert it keyed by the
activity id. -/
def load_activity_gpx_tracks (parseGeom : String → String)
    (pairs : List (Int × String)) (table : Option (List TrackRow)) :
    List TrackRow :=
  pairs.foldl
    (fun rows pr => upsertTrack rows pr.1 (parseGeom pr.2))
    (init_gpx_table table)

/-! ## Auth flow (`auth` in `cli.py`) -/

/-- OAuth token as returned by the token endpoint. -/
structure Token where
  access_token : String
  refresh_token : String
deriving DecidableEq, Repr

/-- The `save_token` helper: writing the token file replaces its
contents with the serialized token.  The file state is `none` when no
token file exists. -/
def save_token (token : Token) (_file : Option Token) : Option Token :=
  some token

/-- Tail of the `auth` command after the callback listener has
delivered the authorization code: exchange the code for a token via
`oauth.fetch_token` (abstracted as `fetchToken`, which may raise) and
persist it with `save_token`.  The result is the command's outcome
paired with the final token-file state; on an exchange failure the
exception propagates and the file is left as it was. -/
def auth_command (code : String)
    (fetchToken : String → Except String Token)
    (file0 : Option Token) : Except String Token × Option Token :=
  match fetchToken code with
  | Except.error e => (Except.error e, file0)
  | Except.ok t => (Except.ok t, save_token t file0)

/-! ## OAuth callback listener (`auth_http_server.py`) -/

/-- State of the `DataSavingHTTPServer`: the `_app_data` dictionary
and whether a shutdown of `serve_forever` has been scheduled. -/
structure ServerState where
  appData : List (String × String)
  shutdownScheduled : Bool
deriving DecidableEq, Repr

/-- The `set_app_data` method: dictionary assignment. -/
def set_app_data (st : ServerState) (key val : String) : ServerState :=
  { st with appData := (key, val) :: st.appData.filter (fun p => p.1 ≠ key) }

/-- The `get_app_data` method: dictionary lookup (raises `KeyError`,
i.e. `none`, for a missing key). -/
def get_app_data (st : ServerState) (key : String) : Option String :=
  (st.appData.filter (fun p => p.1 = key)).head?.map (fun p => p.2)

/-- The `do_GET` handler, applied to the parsed query string of the
request (the multi-dict produced by `parse_qs`, as key/value pairs in
order).  `query["code"][0]` raises `KeyError` when no `code`
parameter is present — before `set_app_data` runs and before the
shutdown thread is started — and the server (which catches handler
exceptions) keeps its state.  With a `code` parameter, its first
value is stored and a shutdown of the listener is scheduled. -/
def do_GET (query : List (String × String)) (st : ServerState) :
    ServerState × Option String :=
  match (query.filter (fun p => p.1 = "code")).map (fun p => p.2) with
  | [] => (st, some "KeyError: code")
  | c :: _ =>
    let st1 := set_app_data st "authorization_code" c
    ({ st1 with shutdownScheduled := true }, none)

/-- The `serve_forever` loop of the listener: handle incoming GET
requests one at a time (exceptions in a handler are caught and
logged; the server keeps serving) until a handler schedules a
shutdown. -/
def serve (st : ServerState) :
    List (List (String × String)) → ServerState
  | [] => st
  | q :: rest =>
    let st1 := (do_GET q st).1
    if st1.shutdownScheduled then st1 else serve st1 rest

/-! ## Lemmas about the fetch loop -/

/-- Concatenation of the bodies of `m` consecutive pages starting at
page `p`, as accumulated by the fetch loop. -/
def pageBodies (remote : Request → Resp) (a : Option Int) (p m : Nat) :
    List Activity :=
  ((List.range m).map (fun k => (remote ⟨p + k, a⟩).body)).flatten

/-! Concrete instances used to evaluate the theorems on closed inputs. -/

/-- A sample activity row. -/
def wAct (n : Int) : Activity := ⟨n, "2021-05-02T07:00:00Z", []⟩

/-- Remote with one full page followed by empty pages. -/
def wRemoteTwoPages : Request → Resp := fun r =>
  if r.page = 1 then ⟨200, [wAct 10]⟩ else ⟨200, []⟩

/-- Remote with one full page and then a 429 rate-limit response. -/
def wRemoteFailPage2 : Request → Resp := fun r =>
  if r.page = 1 then ⟨200, [wAct 11]⟩ else ⟨429, []⟩

/-- Remote with no activities at all. -/
def wRemoteEmpty : Request → Resp := fun _ => ⟨200, []⟩

/-- A store with one stored activity. -/
def wRows : List Activity := [⟨7, "2021-05-02T07:00:00Z", []⟩]

/-- Parsed timestamp of the stored activity. -/
def wDT : DateTime := ⟨2021, 5, 2, 7, 0, 0⟩

/-- A geometry table with one row. -/
def wTracks : List TrackRow := [⟨5, "OLD"⟩]

/-- First parse of a GPX file. -/
def wParse1 : String → String := fun p => p ++ ":wkt1"

/-- Second parse of a GPX file. -/
def wParse2 : String → String := fun p => p ++ ":wkt2"

/-- A sample GPX fetcher activity. -/
def wActGpx : GpxActivity := ⟨123, "Morning Run #1", "2021-05-02T07:00:00"⟩

/-- A failing token exchange. -/
def wFetchFail : String → Except String Token := fun _ =>
  Except.error "invalid_grant"

/-- A callback query string carrying a code. -/
def wQuery : List (String × String) := [("state", "xyz"), ("code", "abc")]

/-- Fresh listener state. -/
def wServerState : ServerState := ⟨[], false⟩

theorem fetchLoop_stop (remote : Request → Resp) (a : Option Int)
    (fuel page : Nat) (acc : List Activity) (reqs : List Request)
    (h : (remote ⟨page, a⟩).status ≠ 200 ∨ (remote ⟨page, a⟩).body = []) :
    fetchLoop remote a (fuel + 1) page acc reqs = some (reqs ++ [⟨page, a⟩], acc) := by
  by_cases h1 : (remote ⟨page, a⟩).status = 200
  · have h2 : (remote ⟨page, a⟩).body = [] := by tauto
    simp only [fetchLoop]
    rw [if_neg (not_not_intro h1), if_pos h2]
  · simp only [fetchLoop]
    rw [if_pos h1]

theorem fetchLoop_cont (remote : Request → Resp) (a : Option Int)
    (fuel page : Nat) (acc : List Activity) (reqs : List Request)
    (h200 : (remote ⟨page, a⟩).status = 200)
    (hne : (remote ⟨page, a⟩).body ≠ []) :
    fetchLoop remote a (fuel + 1) page acc reqs =
      fetchLoop remote a fuel (page + 1)
        (acc ++ (remote ⟨page, a⟩).body) (reqs ++ [⟨page, a⟩]) := by
  simp only [fetchLoop]
  rw [if_neg (not_not_intro h200), if_neg hne]

theorem range_map_request_shift (p m : Nat) (a : Option Int) :
    (List.range (m + 1)).map (fun k => (⟨p + k, a⟩ : Request)) =
      ⟨p, a⟩ :: (List.range m).map (fun k => (⟨p + 1 + k, a⟩ : Request)) := by
  rw [List.range_succ_eq_map, List.map_cons, List.map_map]
  refine congrArg₂ _ (by simp) (List.map_congr_left ?_)
  intro k _
  simp only [Function.comp_apply]
  exact congrArg (fun n => Request.mk n a) (by omega)

theorem pageBodies_succ (remote : Request → Resp) (a : Option Int) (p m : Nat) :
    pageBodies remote a p (m + 1) =
      (remote ⟨p, a⟩).body ++ pageBodies remote a (p + 1) m := by
  unfold pageBodies
  rw [List.range_succ_eq_map, List.map_cons, List.map_map, List.flatten_cons]
  refine congrArg₂ _ (by simp) (congrArg _ (List.map_congr_left ?_))
  intro k _
  simp only [Function.comp_apply]
  exact congrArg (fun n => (remote ⟨n, a⟩).body) (by omega)

/-- Complete run of the fetch loop: if the `m` pages starting at `p`
are full 200 pages and page `p + m` is a stopping page (non-200
status or empty body), then with enough fuel the loop issues exactly
the requests for pages `p, …, p + m` in order and accumulates the
concatenation of the `m` full pages. -/
theorem fetchLoop_run (remote : Request → Resp) (a : Option Int) :
    ∀ (m p fuel : Nat) (acc : List Activity) (reqs : List Request),
      (∀ k, k < m →
        (remote ⟨p + k, a⟩).status = 200 ∧ (remote ⟨p + k, a⟩).body ≠ []) →
      ((remote ⟨p + m, a⟩).status ≠ 200 ∨ (remote ⟨p + m, a⟩).body = []) →
      m + 1 ≤ fuel →
      fetchLoop remote a fuel p acc reqs =
        some (reqs ++ (List.range (m + 1)).map (fun k => (⟨p + k, a⟩ : Request)),
              acc ++ pageBodies remote a p m)
  | 0, p, fuel, acc, reqs, _, hstop, hfuel => by
    obtain ⟨f, rfl⟩ : ∃ f, fuel = f + 1 := ⟨fuel - 1, by omega⟩
    rw [fetchLoop_stop remote a f p acc reqs (by simpa using hstop)]
    simp [pageBodies, List.range_succ]
  | m + 1, p, fuel, acc, reqs, hfull, hstop, hfuel => by
    obtain ⟨f, rfl⟩ : ∃ f, fuel = f + 1 := ⟨fuel - 1, by omega⟩
    obtain ⟨h200, hne⟩ := by simpa using hfull 0 (Nat.succ_pos m)
    rw [fetchLoop_cont remote a f p acc reqs h200 hne]
    rw [fetchLoop_run remote a m (p + 1) f (acc ++ (remote ⟨p, a⟩).body)
      (reqs ++ [(⟨p, a⟩ : Request)])
      (fun k hk => by
        have h := hfull (k + 1) (by omega)
        rwa [show p + (k + 1) = p + 1 + k by omega] at h)
      (by rwa [show p + 1 + m = p + (m + 1) by omega])
      (by omega)]
    rw [range_map_request_shift p (m + 1) a, pageBodies_succ remote a p m]
    simp

/-- Every request issued by the fetch loop carries the fixed `after`
parameter the loop was started with. -/
theorem fetchLoop_after (remote : Request → Resp) (a : Option Int) :
    ∀ (fuel page : Nat) (acc : List Activity) (reqs : List Request)
      (out : List Request × List Activity),
      (∀ r ∈ reqs, r.after = a) →
      fetchLoop remote a fuel page acc reqs = some out →
      ∀ r ∈ out.1, r.after = a
  | 0, page, acc, reqs, out, _, hrun => by simp [fetchLoop] at hrun
  | fuel + 1, page, acc, reqs, out, h, hrun => by
    have hstep : ∀ r ∈ reqs ++ [(⟨page, a⟩ : Request)], r.after = a := by
      intro r hr
      rcases List.mem_append.1 hr with hr | hr
      · exact h r hr
      · simp only [List.mem_singleton] at hr
        subst hr; rfl
    by_cases h1 : (remote ⟨page, a⟩).status = 200
    · by_cases h2 : (remote ⟨page, a⟩).body = []
      · rw [fetchLoop_stop remote a fuel page acc reqs (Or.inr h2)] at hrun
        cases hrun
        exact hstep
      · rw [fetchLoop_cont remote a fuel page acc reqs h1 h2] at hrun
        exact fetchLoop_after remote a fuel (page + 1)
          (acc ++ (remote ⟨page, a⟩).body) (reqs ++ [⟨page, a⟩]) out hstep hrun
    · rw [fetchLoop_stop remote a fuel page acc reqs (Or.inl h1)] at hrun
      cases hrun
      exact hstep

/-- Every page request recorded in the trace of a completed
`activities` run carries the `after` parameter computed from the
watermark and the `--all-activities` flag. -/
theorem activitiesSync_requests (store : StoreTable)
    (all_activities truncate : Bool) (remote : Request → Resp)
    (fuel : Nat) (w : Option DateTime) (trace : List SyncEvent)
    (tbl : StoreTable)
    (hw : computeWatermark store = Except.ok w)
    (hrun : activitiesSync store all_activities truncate remote fuel =
      some (Except.ok (trace, tbl))) :
    ∀ r : Request, SyncEvent.request r ∈ trace →
      r.after = afterParam all_activities w := by
  simp only [activitiesSync, hw] at hrun
  cases hfl : fetchLoop remote (afterParam all_activities w) fuel 1 [] [] with
  | none => rw [hfl] at hrun; cases hrun
  | some out =>
    obtain ⟨reqs, acts⟩ := out
    rw [hfl] at hrun
    simp only [Option.some.injEq, Except.ok.injEq, Prod.mk.injEq] at hrun
    obtain ⟨htrace, -⟩ := hrun
    subst htrace
    intro r hr
    rcases List.mem_append.1 hr with hr | hr
    · obtain ⟨q, hq, hqr⟩ := List.mem_map.1 hr
      have hq2 := fetchLoop_after remote (afterParam all_activities w) fuel 1 [] []
        (reqs, acts) (by simp) hfl q hq
      cases hqr
      exact hq2
    · simp only [List.mem_singleton] at hr
      cases hr

/-- Claim C2: a remote endpoint answering N consecutive full 200
pages and then an empty 200 page makes the fetch loop issue requests
for pages 1 through N+1 in increasing order, stop on the empty page,
and accumulate exactly the concatenation of the N pages. -/
theorem pagination_termination (remote : Request → Resp) (a : Option Int)
    (N fuel : Nat)
    (hfull : ∀ k, 1 ≤ k → k ≤ N →
      (remote ⟨k, a⟩).status = 200 ∧ (remote ⟨k, a⟩).body ≠ [])
    (hempty : (remote ⟨N + 1, a⟩).status = 200 ∧ (remote ⟨N + 1, a⟩).body = [])
    (hfuel : N + 1 ≤ fuel) :
    fetchLoop remote a fuel 1 [] [] =
      some ((List.range (N + 1)).map (fun k => (⟨1 + k, a⟩ : Request)),
            pageBodies remote a 1 N) := by
  rw [fetchLoop_run remote a N 1 fuel [] []
    (fun k hk => by
      have h := hfull (1 + k) (by omega) (by omega)
      rwa [show 1 + k = k + 1 by omega] at h ⊢)
    (by rw [show 1 + N = N + 1 by omega]; exact Or.inr hempty.2)
    hfuel]
  simp

/-- Claim C3: when some page request returns a non-200 status (429
included — the run still completes normally, without an error value),
the fetch loop terminates at that page, and the run's trace is the
page requests followed by exactly one database write, holding every
activity of the pages fetched before the failing one; the table is
updated only by that single batched upsert. -/
theorem partial_pages_persisted (store : StoreTable)
    (all_activities truncate : Bool) (remote : Request → Resp)
    (w : Option DateTime) (N fuel : Nat)
    (hw : computeWatermark store = Except.ok w)
    (hfull : ∀ k, 1 ≤ k → k ≤ N →
      (remote ⟨k, afterParam all_activities w⟩).status = 200 ∧
      (remote ⟨k, afterParam all_activities w⟩).body ≠ [])
    (hfail : (remote ⟨N + 1, afterParam all_activities w⟩).status ≠ 200)
    (hfuel : N + 1 ≤ fuel) :
    activitiesSync store all_activities truncate remote fuel =
      some (Except.ok
        ((List.range (N + 1)).map
            (fun k => SyncEvent.request ⟨1 + k, afterParam all_activities w⟩)
          ++ [SyncEvent.dbWrite
                (pageBodies remote (afterParam all_activities w) 1 N)],
         insertAllReplace store truncate
           (pageBodies remote (afterParam all_activities w) 1 N))) := by
  simp only [activitiesSync, hw]
  rw [fetchLoop_run remote (afterParam all_activities w) N 1 fuel [] []
    (fun k hk => by
      have h := hfull (1 + k) (by omega) (by omega)
      rwa [show 1 + k = k + 1 by omega] at h ⊢)
    (by rw [show 1 + N = N + 1 by omega]; exact Or.inl hfail)
    hfuel]
  simp

/-- Claim C4: for a store whose activities table holds rows whose
maximal `start_date` parses to the timestamp `dt` (the claim's `T`),
a sync without the full-resync flag computes the watermark `dt`, and
every page request of a completed run carries `after = epochOf dt`,
the watermark as a provider-epoch timestamp — so no request asks for
activities earlier than the watermark. -/
theorem watermark_after_filter (rows : List Activity) (s : String)
    (dt : DateTime) (truncate : Bool) (remote : Request → Resp)
    (fuel : Nat) (trace : List SyncEvent) (tbl : StoreTable)
    (hmax : maxStartDate rows = some s)
    (hparse : parseStartDate s = some dt)
    (hrun : activitiesSync (StoreTable.present rows) false truncate remote fuel =
      some (Except.ok (trace, tbl))) :
    computeWatermark (StoreTable.present rows) = Except.ok (some dt) ∧
      ∀ r : Request, SyncEvent.request r ∈ trace →
        r.after = some (epochOf dt) := by
  have hw : computeWatermark (StoreTable.present rows) = Except.ok (some dt) := by
    simp [computeWatermark, hmax, hparse]
  refine ⟨hw, fun r hr => ?_⟩
  have h := activitiesSync_requests (StoreTable.present rows) false truncate
    remote fuel (some dt) trace tbl hw hrun r hr
  simpa [afterParam] using h

/-- Claim C6: a sync run (no flags) against a remote with no
activities after the store's watermark — the response to the single
filtered page-1 request is an empty 200 page — leaves the contents of
the activities table unchanged: the run requests page 1, gets nothing
back, and the single batched upsert of an empty list is a no-op. -/
theorem sync_no_new_data_unchanged (store : StoreTable)
    (w : Option DateTime) (remote : Request → Resp) (fuel : Nat)
    (hw : computeWatermark store = Except.ok w)
    (hempty : remote ⟨1, afterParam false w⟩ = ⟨200, []⟩)
    (hfuel : 1 ≤ fuel) :
    activitiesSync store false false remote fuel =
      some (Except.ok
        ([SyncEvent.request ⟨1, afterParam false w⟩, SyncEvent.dbWrite []],
         store)) := by
  obtain ⟨f, rfl⟩ : ∃ f, fuel = f + 1 := ⟨fuel - 1, by omega⟩
  simp only [activitiesSync, hw]
  rw [fetchLoop_stop remote (afterParam false w) f 1 [] []
    (Or.inr (by rw [hempty]))]
  simp [insertAllReplace]

/-- Counterexample to claim C1 as stated: a store whose `activities`
table exists but contains no rows is a store containing no
activities, yet the watermark computation does not come out absent —
`MAX(start_date)` is NULL, slicing it raises an uncaught `TypeError`,
and the sync run (with or without the full-resync flag) terminates
with that exception before issuing any request. -/
theorem empty_table_sync_raises :
    computeWatermark (StoreTable.present []) ≠ Except.ok none ∧
      activitiesSync (StoreTable.present []) false false
          (fun _ => ⟨200, []⟩) 5 = some (Except.error PyError.typeError) ∧
      activitiesSync (StoreTable.present []) true false
          (fun _ => ⟨200, []⟩) 5 = some (Except.error PyError.typeError) := by
  refine ⟨fun h => ?_, rfl, rfl⟩
  have : Except.error (ε := PyError) (α := Option DateTime) PyError.typeError =
      Except.ok none := h
  cases this

/-- Claim C1 (amended): for a sync run against a store with no
`activities` table (the empty-store/first-sync case) the watermark is
absent, and in that case — and whenever the full-resync flag is set —
every page request of a completed run carries no `after` filter.  (A
store whose table exists but is empty instead raises a `TypeError`;
see the counterexample.) -/
theorem no_after_without_watermark (store : StoreTable)
    (all_activities truncate : Bool) (remote : Request → Resp)
    (fuel : Nat) (w : Option DateTime) (trace : List SyncEvent)
    (tbl : StoreTable)
    (hcase : store = StoreTable.absent ∨ all_activities = true)
    (hw : computeWatermark store = Except.ok w)
    (hrun : activitiesSync store all_activities truncate remote fuel =
      some (Except.ok (trace, tbl))) :
    (store = StoreTable.absent → w = none) ∧
      ∀ r : Request, SyncEvent.request r ∈ trace → r.after = none := by
  have habs : store = StoreTable.absent → w = none := by
    intro h
    subst h
    simpa [computeWatermark] using hw.symm
  refine ⟨habs, fun r hr => ?_⟩
  have h := activitiesSync_requests store all_activities truncate
    remote fuel w trace tbl hw hrun r hr
  rcases hcase with hstore | hall
  · rw [habs hstore] at h
    simpa [afterParam] using h
  · subst hall
    simpa [afterParam] using h

/-! ## Lemmas about the geometry upsert -/

theorem upsertTrack_ids (rows : List TrackRow) (i : Int) (g : String) :
    (upsertTrack rows i g).map (fun r => r.id) =
      if i ∈ rows.map (fun r => r.id) then rows.map (fun r => r.id)
      else rows.map (fun r => r.id) ++ [i] := by
  induction rows with
  | nil => simp [upsertTrack]
  | cons r rs ih =>
    simp only [upsertTrack, List.map_cons]
    by_cases h : r.id = i
    · rw [if_pos h, if_pos (by simp [h])]
      simp [h]
    · rw [if_neg h, List.map_cons, ih]
      by_cases hm : i ∈ rs.map (fun r => r.id)
      · rw [if_pos hm, if_pos (by simp [hm])]
      · have hni : i ∉ r.id :: rs.map (fun r => r.id) := by
          simp only [List.mem_cons]
          rintro (h1 | h1)
          · exact h h1.symm
          · exact hm h1
        rw [if_neg hm, if_neg hni, List.cons_append]

theorem upsertTrack_nodup (rows : List TrackRow) (i : Int) (g : String)
    (h : (rows.map (fun r => r.id)).Nodup) :
    ((upsertTrack rows i g).map (fun r => r.id)).Nodup := by
  rw [upsertTrack_ids]
  by_cases hm : i ∈ rows.map (fun r => r.id)
  · rwa [if_pos hm]
  · rw [if_neg hm]
    simp [List.nodup_append, h, hm]

theorem upsertTrack_filter (rows : List TrackRow) (i : Int) (g : String)
    (h : (rows.map (fun r => r.id)).Nodup) :
    (upsertTrack rows i g).filter (fun r => r.id == i) = [⟨i, g⟩] := by
  induction rows with
  | nil => simp [upsertTrack]
  | cons r rs ih =>
    simp only [upsertTrack]
    by_cases hri : r.id = i
    · rw [if_pos hri]
      have hk : i ∉ rs.map (fun r => r.id) := by
        rw [← hri]
        exact (List.nodup_cons.1 (by simpa using h)).1
      have hnil : rs.filter (fun r => r.id == i) = [] := by
        rw [List.filter_eq_nil_iff]
        intro x hx hxi
        exact hk (List.mem_map.2 ⟨x, hx, by simpa using hxi⟩)
      simp [List.filter_cons, hnil]
    · rw [if_neg hri, List.filter_cons, if_neg (by simp [hri])]
      exact ih (List.nodup_cons.1 (by simpa using h)).2

theorem foldl_upsert_nodup (parseGeom : String → String) :
    ∀ (pairs : List (Int × String)) (t : List TrackRow),
      (t.map (fun r => r.id)).Nodup →
      ((pairs.foldl (fun rows pr => upsertTrack rows pr.1 (parseGeom pr.2))
          t).map (fun r => r.id)).Nodup
  | [], t, h => h
  | pr :: prs, t, h => by
    rw [List.foldl_cons]
    exact foldl_upsert_nodup parseGeom prs _
      (upsertTrack_nodup t pr.1 (parseGeom pr.2) h)

/-- Claim C5: loading the same `(activity_id, gpx_path)` pair twice
(with possibly different file contents at the two load times) leaves
exactly one row keyed by that id in `activity_gpx_tracks`, holding
the geometry of the second load; and every load preserves the
invariant of at most one geometry row per activity id. -/
theorem gpx_load_upsert (rows : List TrackRow) (i : Int) (path : String)
    (parse1 parse2 : String → String)
    (hinv : (rows.map (fun r => r.id)).Nodup) :
    (load_activity_gpx_tracks parse2 [(i, path)]
        (some (load_activity_gpx_tracks parse1 [(i, path)]
          (some rows)))).filter (fun r => r.id == i) = [⟨i, parse2 path⟩] ∧
      ∀ (parseGeom : String → String) (pairs : List (Int × String))
        (t : List TrackRow),
        (t.map (fun r => r.id)).Nodup →
        ((load_activity_gpx_tracks parseGeom pairs
            (some t)).map (fun r => r.id)).Nodup := by
  constructor
  · have h1 : load_activity_gpx_tracks parse1 [(i, path)] (some rows) =
        upsertTrack rows i (parse1 path) := by
      simp [load_activity_gpx_tracks, init_gpx_table]
    have h2 : load_activity_gpx_tracks parse2 [(i, path)]
        (some (upsertTrack rows i (parse1 path))) =
        upsertTrack (upsertTrack rows i (parse1 path)) i (parse2 path) := by
      simp [load_activity_gpx_tracks, init_gpx_table]
    rw [h1, h2]
    exact upsertTrack_filter _ i (parse2 path)
      (upsertTrack_nodup rows i (parse1 path) hinv)
  · intro parseGeom pairs t ht
    exact foldl_upsert_nodup parseGeom pairs t ht

/-- Claim C7: the GPX filename is a function only of the activity's
local date (the first ten characters of `start_date_local`), its id,
and its slugified name — and on the activity
`{id: 123, name: "Morning Run #1", start_date_local: "2021-05-02T07:00:00"}`
it comes out as `"20210502_123_morning_run_1.gpx"`. -/
theorem gpx_filename_deterministic (a b : GpxActivity)
    (hdate : a.start_date_local.toList.take 10 = b.start_date_local.toList.take 10)
    (hid : a.id = b.id)
    (hname : slugify a.name = slugify b.name) :
    gpx_filename a = gpx_filename b ∧
      gpx_filename ⟨123, "Morning Run #1", "2021-05-02T07:00:00"⟩ =
        "20210502_123_morning_run_1.gpx" := by
  refine ⟨?_, by decide⟩
  unfold gpx_filename activityDateSlug
  rw [hdate, hid, hname]

/-- Claim C8: an activity whose computed GPX filename is already
present in the cache directory is never navigated to and never
exported during a `download_gpx` run, and its cached file is not
rewritten. -/
theorem cache_skip (hasExport : GpxActivity → Bool)
    (acts : List GpxActivity) (files0 : List String) (a : GpxActivity)
    (hfile : gpx_filename a ∈ files0) :
    a ∉ (download_gpx hasExport acts files0).nav ∧
      a ∉ (download_gpx hasExport acts files0).exported ∧
      gpx_filename a ∉ (download_gpx hasExport acts files0).written := by
  have key : ∀ (l : List GpxActivity) (st : DlState),
      gpx_filename a ∈ st.files → a ∉ st.nav → a ∉ st.exported →
      gpx_filename a ∉ st.written →
      gpx_filename a ∈ (l.foldl (download_gpx_step hasExport) st).files ∧
        a ∉ (l.foldl (download_gpx_step hasExport) st).nav ∧
        a ∉ (l.foldl (download_gpx_step hasExport) st).exported ∧
        gpx_filename a ∉ (l.foldl (download_gpx_step hasExport) st).written := by
    intro l
    induction l with
    | nil => exact fun st h1 h2 h3 h4 => ⟨h1, h2, h3, h4⟩
    | cons b bs ih =>
      intro st h1 h2 h3 h4
      rw [List.foldl_cons]
      by_cases hb : gpx_filename b ∈ st.files
      · exact ih _ (by simp [download_gpx_step, hb, h1])
          (by simp [download_gpx_step, hb, h2])
          (by simp [download_gpx_step, hb, h3])
          (by simp [download_gpx_step, hb, h4])
      · have hba : b ≠ a := fun hh => hb (by rw [hh]; exact h1)
        have hab : a ≠ b := fun hh => hba hh.symm
        have hfn : gpx_filename b ≠ gpx_filename a :=
          fun hh => hb (by rw [hh]; exact h1)
        have hnf : gpx_filename a ≠ gpx_filename b := fun hh => hfn hh.symm
        by_cases he : hasExport b = true
        · exact ih _ (by simp [download_gpx_step, hb, he, h1])
            (by simp [download_gpx_step, hb, he, h2, hab])
            (by simp [download_gpx_step, hb, he, h3, hab])
            (by simp [download_gpx_step, hb, he, h4, hnf])
        · exact ih _ (by simp [download_gpx_step, hb, he, h1])
            (by simp [download_gpx_step, hb, he, h2, hab])
            (by simp [download_gpx_step, hb, he, h3])
            (by simp [download_gpx_step, hb, he, h4])
  have h := key acts ⟨files0, [], [], [], []⟩ hfile (by simp) (by simp) (by simp)
  exact ⟨h.2.1, h.2.2.1, h.2.2.2⟩

/-- Claim C9: if the token exchange raises, the `auth` command
propagates the error and leaves the token file exactly as it was; the
token file can only come into existence through a successful exchange,
and then it holds the exchanged token. -/
theorem token_file_only_after_exchange (code : String)
    (fetchToken : String → Except String Token) (file0 : Option Token) :
    (∀ e, fetchToken code = Except.error e →
        auth_command code fetchToken file0 = (Except.error e, file0)) ∧
      (file0 = none → (auth_command code fetchToken file0).2 ≠ none →
        ∃ t, fetchToken code = Except.ok t ∧
          (auth_command code fetchToken file0).2 = some t) := by
  constructor
  · intro e he
    simp [auth_command, he]
  · intro h0 hne
    cases hft : fetchToken code with
    | error e => simp [auth_command, hft, h0] at hne
    | ok t => exact ⟨t, rfl, by simp [auth_command, hft, save_token]⟩

/-- Claim C10: a GET request without a `code` query parameter makes
the handler raise before any state change — no authorization code is
stored, no shutdown is scheduled, and the listener keeps serving
unchanged — while a request carrying a `code` parameter stores its
first value, succeeds, and terminates the listener. -/
theorem callback_requires_code (query : List (String × String))
    (st : ServerState) (rest : List (List (String × String)))
    (hs : st.shutdownScheduled = false) :
    (query.filter (fun p => p.1 = "code") = [] →
        do_GET query st = (st, some "KeyError: code") ∧
          serve st (query :: rest) = serve st rest) ∧
      ∀ c cs,
        (query.filter (fun p => p.1 = "code")).map (fun p => p.2) = c :: cs →
        (do_GET query st).2 = none ∧
          (do_GET query st).1.shutdownScheduled = true ∧
          get_app_data (do_GET query st).1 "authorization_code" = some c ∧
          serve st (query :: rest) = (do_GET query st).1 := by
  constructor
  · intro hnone
    have hdg : do_GET query st = (st, some "KeyError: code") := by
      simp [do_GET, hnone]
    refine ⟨hdg, ?_⟩
    simp only [serve, hdg, hs]
    rw [if_neg (by simp [hs])]
  · intro c cs hcode
    have hdg : do_GET query st =
        ({ set_app_data st "authorization_code" c with
            shutdownScheduled := true }, none) := by
      simp [do_GET, hcode]
    refine ⟨by rw [hdg], by rw [hdg], ?_, ?_⟩
    · rw [hdg]
      simp [get_app_data, set_app_data]
    · simp only [serve, hdg]
      simp

/-! ## Witnesses: the theorems applied on concrete inputs -/

/-- Witness for C2 on a one-full-page remote. -/
theorem pagination_termination_witness :
    fetchLoop wRemoteTwoPages none 2 1 [] [] =
      some ((List.range 2).map (fun k => (⟨1 + k, none⟩ : Request)),
            pageBodies wRemoteTwoPages none 1 1) :=
  pagination_termination wRemoteTwoPages none 1 2
    (fun k h1 h2 => by
      obtain rfl : k = 1 := by omega
      exact ⟨by decide, by decide⟩)
    ⟨by decide, by decide⟩ (by decide)

/-- Witness for C3 on a remote failing with 429 at page 2. -/
theorem partial_pages_persisted_witness :
    activitiesSync StoreTable.absent false false wRemoteFailPage2 3 =
      some (Except.ok
        ((List.range 2).map
            (fun k => SyncEvent.request ⟨1 + k, afterParam false none⟩)
          ++ [SyncEvent.dbWrite
                (pageBodies wRemoteFailPage2 (afterParam false none) 1 1)],
         insertAllReplace StoreTable.absent false
           (pageBodies wRemoteFailPage2 (afterParam false none) 1 1))) :=
  partial_pages_persisted StoreTable.absent false false wRemoteFailPage2 none 1 3
    rfl
    (fun k h1 h2 => by
      obtain rfl : k = 1 := by omega
      exact ⟨by decide, by decide⟩)
    (by decide) (by decide)

/-- Witness for C4 on a one-row store. -/
theorem watermark_after_filter_witness :
    computeWatermark (StoreTable.present wRows) = Except.ok (some wDT) ∧
      ∀ r : Request, SyncEvent.request r ∈
          [SyncEvent.request ⟨1, some 1619938800⟩, SyncEvent.dbWrite []] →
        r.after = some (epochOf wDT) :=
  watermark_after_filter wRows "2021-05-02T07:00:00Z" wDT false wRemoteEmpty 2
    [SyncEvent.request ⟨1, some 1619938800⟩, SyncEvent.dbWrite []]
    (StoreTable.present wRows)
    (by decide) (by decide) rfl

/-- Witness for C6 on a one-row store and an up-to-date remote. -/
theorem sync_no_new_data_unchanged_witness :
    activitiesSync (StoreTable.present wRows) false false wRemoteEmpty 2 =
      some (Except.ok
        ([SyncEvent.request ⟨1, afterParam false (some wDT)⟩,
          SyncEvent.dbWrite []],
         StoreTable.present wRows)) :=
  sync_no_new_data_unchanged (StoreTable.present wRows) (some wDT)
    wRemoteEmpty 2 rfl rfl (by decide)

/-- Witness for the amended C1 on an absent table. -/
theorem no_after_without_watermark_witness :
    (StoreTable.absent = StoreTable.absent → (none : Option DateTime) = none) ∧
      ∀ r : Request, SyncEvent.request r ∈
          [SyncEvent.request ⟨1, none⟩, SyncEvent.dbWrite []] →
        r.after = none :=
  no_after_without_watermark StoreTable.absent false false wRemoteEmpty 2 none
    [SyncEvent.request ⟨1, none⟩, SyncEvent.dbWrite []] StoreTable.absent
    (Or.inl rfl) rfl rfl

/-- Witness for C5 on a one-row geometry table. -/
theorem gpx_load_upsert_witness :
    (load_activity_gpx_tracks wParse2 [(5, "a.gpx")]
        (some (load_activity_gpx_tracks wParse1 [(5, "a.gpx")]
          (some wTracks)))).filter (fun r => r.id == 5) =
        [⟨5, wParse2 "a.gpx"⟩] ∧
      ∀ (parseGeom : String → String) (pairs : List (Int × String))
        (t : List TrackRow),
        (t.map (fun r => r.id)).Nodup →
        ((load_activity_gpx_tracks parseGeom pairs
            (some t)).map (fun r => r.id)).Nodup :=
  gpx_load_upsert wTracks 5 "a.gpx" wParse1 wParse2 (by decide)

/-- Witness for C7: two activities agreeing on date, id and slug. -/
theorem gpx_filename_deterministic_witness :
    gpx_filename ⟨123, "Run A", "2021-05-02T07:00:00"⟩ =
        gpx_filename ⟨123, "run  a", "2021-05-02T09:30:00"⟩ ∧
      gpx_filename ⟨123, "Morning Run #1", "2021-05-02T07:00:00"⟩ =
        "20210502_123_morning_run_1.gpx" :=
  gpx_filename_deterministic ⟨123, "Run A", "2021-05-02T07:00:00"⟩
    ⟨123, "run  a", "2021-05-02T09:30:00"⟩ (by decide) rfl (by decide)

/-- Witness for C8 on a pre-populated cache. -/
theorem cache_skip_witness :
    wActGpx ∉ (download_gpx (fun _ => true) [wActGpx]
        ["20210502_123_morning_run_1.gpx"]).nav ∧
      wActGpx ∉ (download_gpx (fun _ => true) [wActGpx]
        ["20210502_123_morning_run_1.gpx"]).exported ∧
      gpx_filename wActGpx ∉ (download_gpx (fun _ => true) [wActGpx]
        ["20210502_123_morning_run_1.gpx"]).written :=
  cache_skip (fun _ => true) [wActGpx] ["20210502_123_morning_run_1.gpx"]
    wActGpx (by decide)

/-- Witness for C9 on a failing exchange with no pre-existing file. -/
theorem token_file_only_after_exchange_witness :
    auth_command "thecode" wFetchFail none =
      (Except.error "invalid_grant", none) :=
  (token_file_only_after_exchange "thecode" wFetchFail none).1
    "invalid_grant" rfl

/-- Witness for C10 on a query carrying a code. -/
theorem callback_requires_code_witness :
    (do_GET wQuery wServerState).2 = none ∧
      (do_GET wQuery wServerState).1.shutdownScheduled = true ∧
      get_app_data (do_GET wQuery wServerState).1 "authorization_code" =
        some "abc" ∧
      serve wServerState (wQuery :: []) = (do_GET wQuery wServerState).1 :=
  (callback_requires_code wQuery wServerState [] rfl).2 "abc" [] (by decide)

end StravaToSqlite
